import Mathlib

set_option maxRecDepth 4000

/-!
Shallow embedding of the round logic of a threshold-ECDSA/EdDSA MPC library
(CMP and FROST protocol families), together with theorems about message
validation, finalization guards, and derived values.

Conventions used throughout:
* Curve scalars and points are both modelled in `ZMod q` for a group of prime
  order `q`: a point is identified with its discrete logarithm, the base point
  with `1`, scalar-times-base-point with the scalar itself, and the identity
  point with `0`.
* Party identifiers are strings.
* Fallible Go functions returning a value and an error are modelled with
  `Except String` (or as a pair with an `Option` error when the original code
  both mutates state and reports an error).
* External cryptographic collaborators (Paillier decryption, hash commitment
  checks, signature verification) are modelled as explicit function
  parameters carried in the state or passed to the operation.
-/

namespace MpcLib

/-! ## CMP key generation, round 4: direct share messages -/

namespace CmpKeygen

/-- Modelled from the spec: Feldman evaluation of a VSS polynomial given
"in the exponent".  Under the discrete-log identification of points, the
exponent polynomial is the coefficient list `cs` and evaluation at `x` is
plain polynomial evaluation (Horner form). -/
def evalExponents {q : ℕ} (cs : List (ZMod q)) (x : ZMod q) : ZMod q :=
  cs.foldr (fun a acc => a + x * acc) 0

/-- State of CMP key-generation round 4 as seen by `StoreMessage` and
`Finalize`: the receiver's party scalar, the receiver's Paillier decryption
(an external primitive, modelled as a function from ciphertext handles to the
decrypted integer, `none` when decryption fails), the per-sender VSS exponent
polynomials imported in round 3, the shares imported so far, and the two
delivery-tracking maps (`MessageBroadcasted`, `MessagesForwarded`, modelled
by their key sets). -/
structure Round4State (q : ℕ) where
  n : ℕ
  selfScalar : ZMod q
  dec : ℕ → Option ℤ
  vssExponents : String → Option (List (ZMod q))
  vssShares : String → List (ZMod q × ZMod q)
  broadcasted : Finset String
  forwarded : Finset String

/-- Embedding of `round4.StoreMessage` (cmp/keygen/round4.go): decrypt the
Paillier ciphertext, reduce modulo the group order, reject when the reduced
scalar lifted back to an integer differs from the decrypted integer, reject
when the share's public point differs from the sender's VSS exponent
polynomial evaluated at the receiver's party scalar, and otherwise store the
share and mark the sender's message as forwarded. -/
def round4StoreMessage {q : ℕ} (st : Round4State q) (sender : String) (ct : ℕ) :
    Except String (Round4State q) :=
  match st.dec ct with
  | none => .error "decryption failed"
  | some m =>
    -- Share := NewScalar().SetNat(DecryptedShare.Mod(Order))
    let share : ZMod q := (((m.emod (q : ℤ)).toNat : ℕ) : ZMod q)
    -- DecryptedShare.Eq(MakeInt(Share)) != 1  (for the group order q > 0 the
    -- lifted scalar MakeInt(Share) is the integer m.emod q)
    if m ≠ m.emod (q : ℤ) then .error "decrypted share is not in correct range"
    else
      match st.vssExponents sender with
      | none => .error "vss key not found"
      | some cs =>
        -- PublicShare = Share·G is `share` itself under the discrete-log view
        if share ≠ evalExponents cs st.selfScalar then
          .error "failed to validate VSS share"
        else
          .ok { st with
            vssShares := fun p =>
              if p = sender then (st.selfScalar, share) :: st.vssShares p
              else st.vssShares p,
            forwarded := insert sender st.forwarded }

/-- Concrete round-4 state used as evaluation input: five parties, group
order 5, receiver scalar 2, ciphertext handle 0 decrypting to 3, sender
with the constant exponent polynomial 3. -/
def r4StW : Round4State 5 where
  n := 3
  selfScalar := 2
  dec := fun ct => if ct = 0 then some 3 else if ct = 1 then some 9 else none
  vssExponents := fun p => if p = "b" then some [3] else none
  vssShares := fun _ => []
  broadcasted := ∅
  forwarded := ∅

end CmpKeygen

end MpcLib

namespace MpcLib

namespace CmpKeygen

/-! ## CMP key generation, round 3: broadcast openings -/

/-- Modelled from the spec: `types.RID.Validate` rejects all-zero and
wrong-length values (RIDs and chain keys are 32 bytes). -/
def ridValidate (r : List ℕ) : Bool :=
  r.length = 32 && r.any (· ≠ 0)

/-- Round-3 broadcast body (`broadcast3` in cmp/keygen/round3.go): the
sender's RID and chain-key contributions, its ECDSA/ElGamal/Paillier/Pedersen
key bytes, its VSS exponent polynomial (already deserialized to the
coefficient list under the discrete-log view), a Schnorr commitment and the
decommitment for the round-1 hash commitment. -/
structure Broadcast3 (q : ℕ) where
  rid : List ℕ
  c : List ℕ
  ecdsaKey : List ℕ
  vssPolynomial : List (ZMod q)
  schnorrCommitments : ZMod q
  elgamalKey : List ℕ
  paillierKey : List ℕ
  pedersenKey : List ℕ
  decommitment : List ℕ

/-- State of CMP key-generation round 3: externally-provided validators for
hash decommitments (`hash.Decommitment.Validate` and the transcript
`Decommit` check, both external hash primitives), the session threshold, the
per-sender stores mutated by the imports, and the broadcast delivery map. -/
structure Round3State (q : ℕ) where
  threshold : ℕ
  decomValid : List ℕ → Bool
  decommitOk : String → Broadcast3 q → Bool
  rids : String → Option (List ℕ)
  chainKeys : String → Option (List ℕ)
  polys : String → Option (List (ZMod q))
  schnorrCommitments : String → Option (ZMod q)
  broadcasted : Finset String

/-- Embedding of `round3.StoreBroadcastMessage` (cmp/keygen/round3.go):
validate the RID, chain key and decommitment, import the sender's keys and
VSS exponent polynomial, check the decommitment against the stored
commitment, and mark the broadcast received.  The degree checks present in
the original doc comment are commented out in the source and therefore
absent here as well.  The result pairs the (possibly mutated) state with an
optional error, since the source mutates its stores before the decommitment
check can still fail. -/
def round3StoreBroadcastMessage {q : ℕ} (st : Round3State q) (sender : String)
    (b : Broadcast3 q) : Round3State q × Option String :=
  if ¬ ridValidate b.rid then (st, some "rid: invalid")
  else if ¬ ridValidate b.c then (st, some "chainkey: invalid")
  else if ¬ st.decomValid b.decommitment then (st, some "invalid decommitment")
  else
    let st' := { st with
      rids := fun p => if p = sender then some b.rid else st.rids p,
      chainKeys := fun p => if p = sender then some b.c else st.chainKeys p,
      polys := fun p => if p = sender then some b.vssPolynomial else st.polys p,
      schnorrCommitments := fun p =>
        if p = sender then some b.schnorrCommitments else st.schnorrCommitments p }
    if ¬ st.decommitOk sender b then (st', some "failed to decommit")
    else ({ st' with broadcasted := insert sender st'.broadcasted }, none)

/-- Concrete round-3 state for the degree counterexample: threshold 1, all
external hash checks succeed. -/
def r3StW : Round3State 5 where
  threshold := 1
  decomValid := fun _ => true
  decommitOk := fun _ _ => true
  rids := fun _ => none
  chainKeys := fun _ => none
  polys := fun _ => none
  schnorrCommitments := fun _ => none
  broadcasted := ∅

/-- Concrete round-3 broadcast whose VSS exponent polynomial has degree 2,
different from the threshold 1 of `r3StW`; all other fields are valid. -/
def r3BadDegree : Broadcast3 5 where
  rid := List.replicate 31 0 ++ [1]
  c := List.replicate 31 0 ++ [2]
  ecdsaKey := [0]
  vssPolynomial := [1, 2, 3]
  schnorrCommitments := 1
  elgamalKey := [0]
  paillierKey := [0]
  pedersenKey := [0]
  decommitment := List.replicate 32 1

/-- Claim C3: CMP key-generation round 3 is claimed to reject every broadcast
whose VSS exponent polynomial has degree different from the threshold.  The
code does not: at the concrete state `r3StW` (threshold 1) the broadcast
`r3BadDegree` carries a degree-2 polynomial, yet `StoreBroadcastMessage`
returns no error and stores the polynomial. -/
theorem round3_accepts_wrong_degree_vss :
    (round3StoreBroadcastMessage r3StW "b" r3BadDegree).2 = none ∧
    (round3StoreBroadcastMessage r3StW "b" r3BadDegree).1.polys "b"
      = some r3BadDegree.vssPolynomial ∧
    r3BadDegree.vssPolynomial.length - 1 ≠ r3StW.threshold := by
  refine ⟨?_, ?_, by decide⟩
  · rfl
  · rfl

/-! ## CMP key generation, round 3 finalize: RID and ChainKey folds -/

/-- Modelled from the spec: `types.RID.XOR` combines two 32-byte random
identifiers byte-wise with exclusive or. -/
def xorRID (a b : List ℕ) : List ℕ :=
  List.zipWith Nat.xor a b

/-- Modelled from the spec: `types.EmptyRID` is the all-zero 32-byte value. -/
def emptyRID : List ℕ :=
  List.replicate 32 0

/-- Embedding of the accumulation loops in `round3.Finalize`
(cmp/keygen/round3.go): starting from the empty RID, fold the per-party
contributions with XOR in iteration order.  The same loop computes the RID
(over the RID store) and the ChainKey (over the chain-key store). -/
def ridFold (contrib : String → List ℕ) (ps : List String) : List ℕ :=
  ps.foldl (fun acc j => xorRID acc (contrib j)) emptyRID

theorem xorRID_right_comm (b x y : List ℕ) :
    xorRID (xorRID b x) y = xorRID (xorRID b y) x := by
  induction b generalizing x y with
  | nil => cases x <;> cases y <;> rfl
  | cons a b ih =>
    cases x with
    | nil => cases y <;> rfl
    | cons xh xt =>
      cases y with
      | nil => rfl
      | cons yh yt =>
        simp only [xorRID, List.zipWith] at ih ⊢
        refine congrArg₂ _ ?_ (ih xt yt)
        show a ^^^ xh ^^^ yh = a ^^^ yh ^^^ xh
        rw [Nat.xor_assoc, Nat.xor_assoc, Nat.xor_comm xh yh]

/-- Claim C1: in CMP key-generation round 4, `StoreMessage` decrypts the
direct share with the receiver's Paillier secret key, errors when the
decrypted integer differs from its reduction modulo the group order (out of
range), errors when the share times the base point differs from the sender's
VSS exponent polynomial evaluated at the receiver's party scalar, and stores
the share (marking the sender's message forwarded) exactly when both checks
pass. -/
theorem round4_storeMessage_spec {q : ℕ} (st : Round4State q) (sender : String)
    (ct : ℕ) :
    (st.dec ct = none → round4StoreMessage st sender ct = .error "decryption failed") ∧
    (∀ m : ℤ, st.dec ct = some m → m ≠ m.emod (q : ℤ) →
      round4StoreMessage st sender ct = .error "decrypted share is not in correct range") ∧
    (∀ (m : ℤ) (cs : List (ZMod q)), st.dec ct = some m →
      st.vssExponents sender = some cs → m = m.emod (q : ℤ) →
      (((m.emod (q : ℤ)).toNat : ZMod q)) ≠ evalExponents cs st.selfScalar →
      round4StoreMessage st sender ct = .error "failed to validate VSS share") ∧
    (∀ (m : ℤ) (cs : List (ZMod q)), st.dec ct = some m →
      st.vssExponents sender = some cs → m = m.emod (q : ℤ) →
      (((m.emod (q : ℤ)).toNat : ZMod q)) = evalExponents cs st.selfScalar →
      ∃ st', round4StoreMessage st sender ct = .ok st' ∧
        st'.vssShares sender
          = (st.selfScalar, (((m.emod (q : ℤ)).toNat : ZMod q))) :: st.vssShares sender ∧
        sender ∈ st'.forwarded) := by
  refine ⟨?_, ?_, ?_, ?_⟩
  · intro hdec
    unfold round4StoreMessage
    rw [hdec]
  · intro m hdec hne
    unfold round4StoreMessage
    rw [hdec]
    dsimp only
    rw [if_pos hne]
  · intro m cs hdec hvss heq hne
    unfold round4StoreMessage
    rw [hdec]
    dsimp only
    rw [if_neg (fun h => h heq), hvss]
    dsimp only
    rw [if_pos hne]
  · intro m cs hdec hvss heq hshare
    refine ⟨{ st with
        vssShares := fun p =>
          if p = sender then
            (st.selfScalar, (((m.emod (q : ℤ)).toNat : ℕ) : ZMod q)) :: st.vssShares p
          else st.vssShares p,
        forwarded := insert sender st.forwarded }, ?_, ?_, ?_⟩
    · unfold round4StoreMessage
      rw [hdec]
      dsimp only
      rw [if_neg (fun h => h heq), hvss]
      dsimp only
      rw [if_neg (fun h => h hshare)]
    · simp
    · simp

/-- Witness for C1: at the concrete state `r4StW`, ciphertext 0 decrypts to 3,
which is in range modulo 5 and matches the sender's constant exponent
polynomial, so the share is stored; ciphertext 1 decrypts to 9, which is out
of range. -/
theorem round4_storeMessage_spec_witness :
    (∃ st', round4StoreMessage r4StW "b" 0 = .ok st' ∧
      st'.vssShares "b" = [((2 : ZMod 5), (3 : ZMod 5))] ∧ "b" ∈ st'.forwarded) ∧
    round4StoreMessage r4StW "b" 1
      = .error "decrypted share is not in correct range" := by
  constructor
  · obtain ⟨st', h1, h2, h3⟩ :=
      (round4_storeMessage_spec r4StW "b" 0).2.2.2 3 [3] rfl rfl (by decide) (by decide)
    exact ⟨st', h1, by simpa [r4StW] using h2, h3⟩
  · exact (round4_storeMessage_spec r4StW "b" 1).2.1 9 rfl (by decide)

/-- Claim C7: the RID and ChainKey folds of `round3.Finalize` are independent
of the iteration order over the party set: permuting the party list leaves
both XOR folds unchanged. -/
theorem round3_ridFold_perm_invariant (ps₁ ps₂ : List String)
    (rids cks : String → List ℕ) (h : ps₁.Perm ps₂) :
    ridFold rids ps₁ = ridFold rids ps₂ ∧ ridFold cks ps₁ = ridFold cks ps₂ := by
  constructor
  · exact h.foldl_eq' (fun x _ y _ z => xorRID_right_comm z (rids x) (rids y)) emptyRID
  · exact h.foldl_eq' (fun x _ y _ z => xorRID_right_comm z (cks x) (cks y)) emptyRID

/-- Witness for C7: a concrete three-party set in two different orders gives
identical RID and ChainKey folds. -/
theorem round3_ridFold_perm_invariant_witness :
    ridFold (fun p => if p = "a" then List.replicate 32 1 else List.replicate 32 2)
        ["a", "b", "c"]
      = ridFold (fun p => if p = "a" then List.replicate 32 1 else List.replicate 32 2)
        ["c", "a", "b"] ∧
    ridFold (fun p => if p = "c" then List.replicate 32 3 else List.replicate 32 4)
        ["a", "b", "c"]
      = ridFold (fun p => if p = "c" then List.replicate 32 3 else List.replicate 32 4)
        ["c", "a", "b"] :=
  round3_ridFold_perm_invariant ["a", "b", "c"] ["c", "a", "b"]
    (fun p => if p = "a" then List.replicate 32 1 else List.replicate 32 2)
    (fun p => if p = "c" then List.replicate 32 3 else List.replicate 32 4)
    (by decide)

end CmpKeygen

/-- The round-engine error sentinels relevant here (`lib/round`):
`ErrNotEnoughMessages` is returned by `Finalize` before readiness. -/
inductive RoundErr where
  | notEnoughMessages
  | other (msg : String)
  deriving DecidableEq

namespace CmpKeygen

/-- Embedding of `round4.CanFinalize` (cmp/keygen/round4.go): all N-1 peer
broadcasts and all N-1 direct shares have been stored. -/
def round4CanFinalize {q : ℕ} (st : Round4State q) : Bool :=
  st.broadcasted.card = st.n - 1 && st.forwarded.card = st.n - 1

/-- Embedding of the entry guard of `round4.Finalize` (cmp/keygen/round4.go):
when either delivery map is short of N-1 entries the round returns
`ErrNotEnoughMessages` and no successor round; otherwise the remainder of
`Finalize` runs (modelled by the `rest` continuation, as its result does not
matter for the guard). -/
def round4Finalize {q σ : _} (rest : Round4State q → Except RoundErr σ)
    (st : Round4State q) : Except RoundErr σ :=
  if st.broadcasted.card ≠ st.n - 1 || st.forwarded.card ≠ st.n - 1 then
    .error .notEnoughMessages
  else rest st

end CmpKeygen

/-! ## FROST key generation, round 2 -/

namespace FrostKeygen

/-- Round-2 broadcast body (`broadcast2` in frost/keygen/round2.go): a VSS
exponent polynomial (`none` models a nil pointer), a Schnorr commitment and
proof, and the round-1 hash commitment. -/
structure Broadcast2 (q : ℕ) where
  vssPolynomial : Option (List (ZMod q))
  schnorrCommitment : ZMod q
  schnorrProof : ZMod q
  commitment : List ℕ

/-- External collaborators of round 2: `hash.Commitment.Validate` and the
Schnorr proof verification performed by the imported EC key (external hash
and proof primitives). -/
structure Round2Env (q : ℕ) where
  commitValid : List ℕ → Bool
  schnorrVerify : String → ZMod q → ZMod q → Bool

/-- State of FROST key-generation round 2: the commitment store, imported EC
public keys and Schnorr commitments, imported VSS polynomials, the broadcast
delivery records of the message manager, and the list of non-self parties. -/
structure Round2State (q : ℕ) where
  others : List String
  commitments : String → Option (List ℕ)
  ecKeys : String → Option (ZMod q)
  schnorrCommitments : String → Option (ZMod q)
  vssPolys : String → Option (List (ZMod q))
  delivered : List String

/-- Embedding of the primary `round2.StoreBroadcastMessage`
(frost/keygen/round2.go, first copy): reject an identity Schnorr commitment,
a zero Schnorr proof or a nil VSS polynomial; validate and import the
commitment; import the sender's public key (the polynomial's constant) and
Schnorr commitment; verify the Schnorr proof; import the VSS polynomial and
mark the broadcast received. -/
def round2StoreBroadcastMessage {q : ℕ} (env : Round2Env q) (st : Round2State q)
    (sender : String) (b : Broadcast2 q) : Except String (Round2State q) :=
  if b.schnorrCommitment = 0 then
    .error "frost.Keygen.Round2: invalid schnorr commitment"
  else if b.schnorrProof = 0 then
    .error "frost.Keygen.Round2: invalid schnorr proof"
  else
    match b.vssPolynomial with
    | none => .error "frost.Keygen.Round2: invalid VSS polynomial"
    | some poly =>
      if ¬ env.commitValid b.commitment then .error "invalid commitment"
      else
        let st' := { st with
          commitments := fun p => if p = sender then some b.commitment else st.commitments p,
          ecKeys := fun p => if p = sender then some (poly.headD 0) else st.ecKeys p,
          schnorrCommitments := fun p =>
            if p = sender then some b.schnorrCommitment else st.schnorrCommitments p }
        if ¬ env.schnorrVerify sender b.schnorrCommitment b.schnorrProof then
          .error "frost.Keygen.Round2: schnorr proof verification failed"
        else
          .ok { st' with
            vssPolys := fun p => if p = sender then some poly else st'.vssPolys p,
            delivered := sender :: st'.delivered }

/-- Embedding of the adjacent draft `round2.StoreBroadcastMessage`
(frost/keygen/round2.go, second copy): identical to the primary one except
that the Schnorr commitment guard is inverted (it rejects when the
commitment is NOT the identity), no VSS polynomial is imported and the
delivery record is not updated. -/
def draftRound2StoreBroadcastMessage {q : ℕ} (env : Round2Env q)
    (st : Round2State q) (sender : String) (b : Broadcast2 q) :
    Except String (Round2State q) :=
  if b.schnorrCommitment ≠ 0 then
    .error "frost.Keygen.Round2: invalid schnorr commitment"
  else if b.schnorrProof = 0 then
    .error "frost.Keygen.Round2: invalid schnorr proof"
  else
    match b.vssPolynomial with
    | none => .error "frost.Keygen.Round2: invalid VSS polynomial"
    | some poly =>
      if ¬ env.commitValid b.commitment then .error "invalid commitment"
      else
        let st' := { st with
          commitments := fun p => if p = sender then some b.commitment else st.commitments p,
          ecKeys := fun p => if p = sender then some (poly.headD 0) else st.ecKeys p,
          schnorrCommitments := fun p =>
            if p = sender then some b.schnorrCommitment else st.schnorrCommitments p }
        if ¬ env.schnorrVerify sender b.schnorrCommitment b.schnorrProof then
          .error "frost.Keygen.Round2: schnorr proof verification failed"
        else .ok st'

/-- Embedding of `round2.CanFinalize` (frost/keygen/round2.go): the broadcast
message manager has a delivery record for every non-self party. -/
def round2CanFinalize {q : ℕ} (st : Round2State q) : Bool :=
  st.others.all (st.delivered.contains ·)

/-- Embedding of the entry guard of `round2.Finalize`
(frost/keygen/round2.go): when `CanFinalize` is false the round returns
`ErrNotEnoughMessages` and no successor round; otherwise the remainder of
`Finalize` runs (modelled by the `rest` continuation). -/
def round2Finalize {q σ : _} (rest : Round2State q → Except RoundErr σ)
    (st : Round2State q) : Except RoundErr σ :=
  if ¬ round2CanFinalize st then .error .notEnoughMessages
  else rest st

/-- All-accepting external environment used for concrete evaluations. -/
def kg2EnvW : Round2Env 5 where
  commitValid := fun _ => true
  schnorrVerify := fun _ _ _ => true

/-- Empty round-2 state used for concrete evaluations. -/
def kg2StW : Round2State 5 where
  others := ["b", "c"]
  commitments := fun _ => none
  ecKeys := fun _ => none
  schnorrCommitments := fun _ => none
  vssPolys := fun _ => none
  delivered := []

/-- Claim C2: both round-2 `StoreBroadcastMessage` implementations are
claimed to reject exactly the identity Schnorr commitment.  The primary one
does, but the draft's guard is inverted: on an otherwise valid broadcast
with the non-identity commitment `1` the draft errors with "invalid schnorr
commitment" while the primary accepts, and on the same broadcast with the
identity commitment the draft accepts while the primary errors. -/
theorem draft_round2_identity_check_inverted :
    draftRound2StoreBroadcastMessage kg2EnvW kg2StW "b"
        ⟨some [1], 1, 1, [0]⟩
      = .error "frost.Keygen.Round2: invalid schnorr commitment" ∧
    (draftRound2StoreBroadcastMessage kg2EnvW kg2StW "b"
        ⟨some [1], 0, 1, [0]⟩).isOk = true ∧
    round2StoreBroadcastMessage kg2EnvW kg2StW "b"
        ⟨some [1], 0, 1, [0]⟩
      = .error "frost.Keygen.Round2: invalid schnorr commitment" ∧
    (round2StoreBroadcastMessage kg2EnvW kg2StW "b"
        ⟨some [1], 1, 1, [0]⟩).isOk = true := by
  refine ⟨rfl, rfl, rfl, rfl⟩

end FrostKeygen

/-- Claim C5: for CMP key-generation round 4 and FROST key-generation
round 2, calling `Finalize` while `CanFinalize` is false returns the
`NotEnoughMessages` error (and hence no successor round), whatever the rest
of the finalization would have produced. -/
theorem finalize_guard_notEnoughMessages {q σ : _}
    (stc : CmpKeygen.Round4State q) (restc : CmpKeygen.Round4State q → Except RoundErr σ)
    (hc : CmpKeygen.round4CanFinalize stc = false)
    (stf : FrostKeygen.Round2State q) (restf : FrostKeygen.Round2State q → Except RoundErr σ)
    (hf : FrostKeygen.round2CanFinalize stf = false) :
    CmpKeygen.round4Finalize restc stc = .error .notEnoughMessages ∧
    FrostKeygen.round2Finalize restf stf = .error .notEnoughMessages := by
  constructor
  · unfold CmpKeygen.round4Finalize
    unfold CmpKeygen.round4CanFinalize at hc
    rw [if_pos]
    simp at hc ⊢
    tauto
  · unfold FrostKeygen.round2Finalize
    rw [if_pos (by simp [hf])]

/-- Witness for C5: concrete three-party states with no messages stored, on
which neither round can finalize and both `Finalize` guards return
`NotEnoughMessages`. -/
theorem finalize_guard_notEnoughMessages_witness :
    CmpKeygen.round4Finalize (fun _ => Except.ok 0)
        { n := 3, selfScalar := 2, dec := fun _ => none,
          vssExponents := fun _ => none, vssShares := fun _ => [],
          broadcasted := ∅, forwarded := ∅ : CmpKeygen.Round4State 5 }
      = .error .notEnoughMessages ∧
    FrostKeygen.round2Finalize (fun _ => Except.ok 0) FrostKeygen.kg2StW
      = .error .notEnoughMessages :=
  finalize_guard_notEnoughMessages
    { n := 3, selfScalar := 2, dec := fun _ => none,
      vssExponents := fun _ => none, vssShares := fun _ => [],
      broadcasted := ∅, forwarded := ∅ }
    (fun _ => Except.ok (0 : ℕ)) (by decide)
    FrostKeygen.kg2StW (fun _ => Except.ok 0) (by decide)

/-! ## FROST signing, round 2 -/

namespace FrostSign

/-- State of FROST signing round 2: the non-self parties, the broadcast
delivery records held by the round's message manager, and the two nonce
commitment stores (`sign_d`, `sign_e`). -/
structure Round2State (q : ℕ) where
  selfId : String
  others : List String
  delivered : List String
  signD : String → Option (ZMod q)
  signE : String → Option (ZMod q)

/-- Embedding of the FROST signing `round2.CanFinalize`: the source body is
literally `return true`; it consults neither delivery records nor stores. -/
def round2CanFinalize {q : ℕ} (_st : Round2State q) : Bool :=
  true

/-- The readiness predicate the specification ascribes to the round: `HasAll`
over the non-self parties (every other party's broadcast delivered).  Stated
from the spec's words for comparison with `round2CanFinalize`. -/
def round2CanFinalizeSpec {q : ℕ} (st : Round2State q) : Bool :=
  st.others.all (st.delivered.contains ·)

/-- Embedding of the FROST signing `round2.StoreBroadcastMessage`: reject the
broadcast when either nonce commitment `D` or `E` is the identity point,
before anything is stored; otherwise import both points into the `sign_d`
and `sign_e` stores under the sender's id. -/
def round2StoreBroadcastMessage {q : ℕ} (st : Round2State q) (sender : String)
    (D E : ZMod q) : Except String (Round2State q) :=
  if D = 0 ∨ E = 0 then .error "nonce commitment is the identity point"
  else
    .ok { st with
      signD := fun p => if p = sender then some D else st.signD p,
      signE := fun p => if p = sender then some E else st.signE p }

/-- Concrete round-2 signing state: party "a" with one other party "b" whose
broadcast has not been delivered, and empty stores. -/
def sg2StW : Round2State 5 where
  selfId := "a"
  others := ["b"]
  delivered := []
  signD := fun _ => none
  signE := fun _ => none

/-- Counterexample to claim C4: at `sg2StW` the other party's round-2
broadcast is still missing — the spec-side readiness predicate is false —
yet `CanFinalize` returns true, so `CanFinalize` is not the claimed
`HasAll(OtherPartyIDs)` test and does not return false while a broadcast is
missing. -/
theorem round2CanFinalize_ignores_delivery_cex :
    round2CanFinalize sg2StW = true ∧ round2CanFinalizeSpec sg2StW = false :=
  ⟨rfl, rfl⟩

/-- Claim C4 (amended): the FROST signing round-2 `CanFinalize` returns true
unconditionally, whatever broadcasts have or have not been delivered. -/
theorem round2CanFinalize_always_true {q : ℕ} (st : Round2State q) :
    round2CanFinalize st = true :=
  rfl

/-- Claim C6: the FROST signing round-2 `StoreBroadcastMessage` errors (and
stores nothing) whenever the received `D` or `E` nonce commitment is the
identity point, and every accepted broadcast results in both points being
stored non-identity under the sender's id. -/
theorem round2StoreBroadcast_identity_spec {q : ℕ} (st : Round2State q)
    (sender : String) (D E : ZMod q) :
    ((D = 0 ∨ E = 0) →
      round2StoreBroadcastMessage st sender D E
        = .error "nonce commitment is the identity point") ∧
    (∀ st', round2StoreBroadcastMessage st sender D E = .ok st' →
      st'.signD sender = some D ∧ st'.signE sender = some E ∧ D ≠ 0 ∧ E ≠ 0) := by
  constructor
  · intro h
    unfold round2StoreBroadcastMessage
    rw [if_pos h]
  · intro st' hok
    unfold round2StoreBroadcastMessage at hok
    by_cases h : D = 0 ∨ E = 0
    · rw [if_pos h] at hok
      exact absurd hok (by simp)
    · rw [if_neg h] at hok
      push_neg at h
      obtain ⟨hD, hE⟩ := h
      cases hok
      exact ⟨by simp, by simp, hD, hE⟩

/-- Witness for C6: at the concrete state `sg2StW`, a broadcast with `D` the
identity is rejected, and an accepted broadcast with `D = 2`, `E = 3` stores
both non-identity points. -/
theorem round2StoreBroadcast_identity_spec_witness :
    round2StoreBroadcastMessage sg2StW "b" 0 1
      = .error "nonce commitment is the identity point" ∧
    ({ sg2StW with
        signD := fun p => if p = "b" then some 2 else sg2StW.signD p,
        signE := fun p => if p = "b" then some 3 else sg2StW.signE p
        : Round2State 5 }.signD "b" = some 2 ∧
      { sg2StW with
        signD := fun p => if p = "b" then some 2 else sg2StW.signD p,
        signE := fun p => if p = "b" then some 3 else sg2StW.signE p
        : Round2State 5 }.signE "b" = some 3 ∧
      (2 : ZMod 5) ≠ 0 ∧ (3 : ZMod 5) ≠ 0) := by
  constructor
  · exact (round2StoreBroadcast_identity_spec sg2StW "b" 0 1).1 (Or.inl rfl)
  · exact (round2StoreBroadcast_identity_spec sg2StW "b" 2 3).2 _ rfl

end FrostSign

/-! ## CMP signing, round 5 -/

namespace CmpSign

/-- An ECDSA signature as carried by the result round: the point `R` and the
scalar `σ` (under the discrete-log view of points). -/
structure Signature (q : ℕ) where
  bigR : ZMod q
  s : ZMod q
  deriving DecidableEq

/-- Outcome of the final round: the result round carrying the signature, or
the abort round carrying the failure reason (`AbortRound` / `ResultRound`). -/
inductive Session5 (q : ℕ) where
  | result (sig : Signature q)
  | abort (reason : String)
  deriving DecidableEq

/-- State of CMP signing round 5: party count, party list, the stored sigma
shares (the self share was stored by round 4, the others by
`StoreBroadcastMessage`), the delivery map, and the point `R` computed in
round 4. -/
structure Round5State (q : ℕ) where
  n : ℕ
  partyIDs : List String
  sigmaShares : String → ZMod q
  broadcasted : Finset String
  bigR : ZMod q

/-- The summation loop of `round5.Finalize`: `σ = Σⱼ σⱼ` over all parties in
iteration order. -/
def sigmaSum {q : ℕ} (st : Round5State q) : ZMod q :=
  st.partyIDs.foldl (fun acc j => acc + st.sigmaShares j) 0

/-- Embedding of `round5.Finalize` (cmp sign round5): return
`ErrNotEnoughMessages` unless all N-1 sigma-share broadcasts are stored; sum
the sigma shares; verify `(R, σ)` as an ECDSA signature (signature
verification is an external primitive, modelled by the `verify` parameter);
return the abort round on failure and the result round carrying the
signature on success. -/
def round5Finalize {q : ℕ} (verify : Signature q → Bool) (st : Round5State q) :
    Except RoundErr (Session5 q) :=
  if st.broadcasted.card ≠ st.n - 1 then .error .notEnoughMessages
  else
    let sig : Signature q := ⟨st.bigR, sigmaSum st⟩
    if ¬ verify sig then .ok (.abort "failed to validate signature")
    else .ok (.result sig)

/-- Claim C9: once all N-1 sigma-share broadcasts are stored, CMP signing
round 5's `Finalize` returns the result round carrying `(R, σ)` with
`σ = Σⱼ σⱼ` exactly when the signature verifies, and the abort round when it
does not; in particular it never returns a signature that fails
verification. -/
theorem round5_finalize_spec {q : ℕ} (verify : Signature q → Bool)
    (st : Round5State q) (h : st.broadcasted.card = st.n - 1) :
    (∀ sig, round5Finalize verify st = .ok (.result sig) ↔
      (sig = ⟨st.bigR, sigmaSum st⟩ ∧ verify ⟨st.bigR, sigmaSum st⟩ = true)) ∧
    (verify ⟨st.bigR, sigmaSum st⟩ = false →
      round5Finalize verify st = .ok (.abort "failed to validate signature")) := by
  constructor
  · intro sig
    unfold round5Finalize
    rw [if_neg (fun hne => hne h)]
    by_cases hv : verify ⟨st.bigR, sigmaSum st⟩ = true
    · rw [if_neg (by simp [hv])]
      constructor
      · intro hok
        cases hok
        exact ⟨rfl, hv⟩
      · rintro ⟨rfl, _⟩
        rfl
    · rw [if_pos (by simpa using hv)]
      constructor
      · intro hok
        exact absurd hok (by simp)
      · rintro ⟨rfl, hv'⟩
        exact absurd hv' hv
  · intro hv
    unfold round5Finalize
    rw [if_neg (fun hne => hne h), if_pos (by simp [hv])]

/-- Concrete round-5 state: three parties, shares all 2 so that `σ = 1` in
`ZMod 5`, both peer broadcasts stored, `R = 4`. -/
def r5StW : Round5State 5 where
  n := 3
  partyIDs := ["a", "b", "c"]
  sigmaShares := fun _ => 2
  broadcasted := {"b", "c"}
  bigR := 4

/-- Witness for C9: at `r5StW`, under a verifier accepting exactly
`(R, σ) = (4, 1)` the result round carries that signature, and under the
all-rejecting verifier the round aborts. -/
theorem round5_finalize_spec_witness :
    (round5Finalize (fun sig => sig.bigR = 4 && sig.s = 1) r5StW
      = .ok (.result ⟨4, 1⟩) ↔
      ((⟨4, 1⟩ : Signature 5) = ⟨r5StW.bigR, sigmaSum r5StW⟩ ∧
        (fun sig : Signature 5 => sig.bigR = 4 && sig.s = 1)
            ⟨r5StW.bigR, sigmaSum r5StW⟩ = true)) ∧
    round5Finalize (fun _ => false) r5StW
      = .ok (.abort "failed to validate signature") := by
  constructor
  · exact (round5_finalize_spec (fun sig => sig.bigR = 4 && sig.s = 1) r5StW
      (by decide)).1 ⟨4, 1⟩
  · exact (round5_finalize_spec (fun _ => false) r5StW (by decide)).2 rfl

end CmpSign

/-! ## ECDSA key byte encoding -/

namespace EcdsaKey

/-- Modelled from the spec: fixed-length big-endian byte encoding of a
natural number, the canonical marshalling used for curve points (33 bytes)
and scalars (32 bytes). -/
def natToBytesBE : ℕ → ℕ → List ℕ
  | 0, _ => []
  | n + 1, v => natToBytesBE n (v / 256) ++ [v % 256]

/-- Modelled from the spec: big-endian decoding, inverse of `natToBytesBE`
on byte lists. -/
def bytesToNatBE (l : List ℕ) : ℕ :=
  l.foldl (fun a b => a * 256 + b % 256) 0

/-- Modelled from the spec: canonical 33-byte marshalling of a secp256k1
point (points identified with naturals). -/
def pointMarshal (p : ℕ) : List ℕ :=
  natToBytesBE 33 p

/-- Modelled from the spec: point unmarshalling, failing on input of the
wrong length. -/
def pointUnmarshal (l : List ℕ) : Option ℕ :=
  if l.length = 33 then some (bytesToNatBE l) else none

/-- Modelled from the spec: canonical 32-byte marshalling of a scalar. -/
def scalarMarshal (s : ℕ) : List ℕ :=
  natToBytesBE 32 s

/-- Modelled from the spec: scalar unmarshalling, failing on input of the
wrong length. -/
def scalarUnmarshal (l : List ℕ) : Option ℕ :=
  if l.length = 32 then some (bytesToNatBE l) else none

/-- The byte values of the group name "secp256k1". -/
def secpName : List ℕ :=
  [115, 101, 99, 112, 50, 53, 54, 107, 49]

/-- An ECDSA key object: optional private scalar and public point, over the
secp256k1 group. -/
structure ECDSAKeyModel where
  priv : Option ℕ
  pub : ℕ
  deriving DecidableEq

/-- Embedding of `ECDSAKey.Bytes`: length-prefixed group name, then
length-prefixed public point bytes, then — only when the key is private —
length-prefixed private scalar bytes. -/
def ECDSAKeyModel.Bytes (k : ECDSAKeyModel) : List ℕ :=
  [secpName.length] ++ secpName
    ++ [(pointMarshal k.pub).length] ++ pointMarshal k.pub
    ++ (match k.priv with
        | some s => [(scalarMarshal s).length] ++ scalarMarshal s
        | none => [])

/-- Result of running the Go decoder: a decoded key, a returned error, or a
runtime panic (out-of-range index or nil dereference). -/
inductive ParseResult (K : Type) where
  | ok (k : K)
  | err
  | panic
  deriving DecidableEq

/-- Embedding of `fromBytes`: read the length-prefixed group name (a nil
group — any name other than "secp256k1" — is dereferenced when making the
point, a panic), read the length-prefixed public point, then unconditionally
read a private-scalar length byte at index `2 + gnLen + pkLen` (a panic when
the data ends there, as it does for every public-only encoding) and
unmarshal the remaining bytes as the private scalar. -/
def fromBytes (data : List ℕ) : ParseResult ECDSAKeyModel :=
  if data.length < 2 then .err
  else
    let gnLen := data.getD 0 0
    if data.length < 2 + gnLen then .err
    else
      let gn := (data.drop 1).take gnLen
      if gn ≠ secpName then .panic
      else
        let pkLen := data.getD (1 + gnLen) 0
        if data.length < 2 + gnLen + pkLen then .err
        else
          match pointUnmarshal ((data.drop (2 + gnLen)).take pkLen) with
          | none => .err
          | some pk =>
            match (data.drop (2 + gnLen + pkLen)).head? with
            | none => .panic
            | some skLen =>
              if data.length < 2 + gnLen + pkLen + skLen then .err
              else
                match scalarUnmarshal (data.drop (3 + gnLen + pkLen)) with
                | none => .err
                | some sk => .ok ⟨some sk, pk⟩

/-- Claim C8: every ECDSA key object, private or public-only, is claimed to
decode back from its byte encoding with a byte-identical re-encode.  The
public-only case fails: the encoding of the public-only key with point 5 is
44 bytes, and `fromBytes` reads the private-scalar length at index 44 — one
past the end — a Go runtime panic, not a successful decode.  (A private key
round-trips: the second conjunct shows the encoding of the private key
`(7, 5)` decoding and re-encoding byte-identically.) -/
theorem fromBytes_public_only_panics :
    fromBytes (ECDSAKeyModel.Bytes ⟨none, 5⟩) = .panic ∧
    (ECDSAKeyModel.Bytes ⟨none, 5⟩).length = 44 ∧
    fromBytes (ECDSAKeyModel.Bytes ⟨some 7, 5⟩) = .ok ⟨some 7, 5⟩ ∧
    (match fromBytes (ECDSAKeyModel.Bytes ⟨some 7, 5⟩) with
      | .ok k => k.Bytes
      | _ => []) = ECDSAKeyModel.Bytes ⟨some 7, 5⟩ := by
  refine ⟨?_, ?_, ?_, ?_⟩ <;> decide

end EcdsaKey

/-! ## Paillier key manager -/

namespace PaillierMgr

/-- A Paillier key: the secret primes of the modulus (zero-valued when
absent). -/
structure PaillierKey where
  p : ℕ
  q : ℕ
  deriving DecidableEq

/-- The zero-valued Paillier key returned on every failure path. -/
def zeroPaillierKey : PaillierKey :=
  ⟨0, 0⟩

/-- Embedding of `PaillierKeyManager.GetKey` (pkg keystore/paillier): look
the key id up in the backing keystore and decode the stored bytes (keystore
and decoder are external collaborators, modelled as parameters).  Both
failure paths return the zero-valued key paired with a nil error. -/
def paillierGetKey (store : String → Except String (List ℕ))
    (decode : List ℕ → Except String PaillierKey) (keyID : String) :
    PaillierKey × Option String :=
  match store keyID with
  | .error _ => (zeroPaillierKey, none)
  | .ok bs =>
    match decode bs with
    | .error _ => (zeroPaillierKey, none)
    | .ok k => (k, none)

/-- Claim C10: `PaillierKeyManager.GetKey` returns a nil error for every
input: when the keystore lookup fails, and when the stored bytes fail to
decode, it returns the zero-valued key with a nil error instead of
surfacing the failure. -/
theorem paillierGetKey_never_errors (store : String → Except String (List ℕ))
    (decode : List ℕ → Except String PaillierKey) (keyID : String) :
    (paillierGetKey store decode keyID).2 = none ∧
    (∀ e, store keyID = .error e →
      paillierGetKey store decode keyID = (zeroPaillierKey, none)) ∧
    (∀ bs e, store keyID = .ok bs → decode bs = .error e →
      paillierGetKey store decode keyID = (zeroPaillierKey, none)) := by
  refine ⟨?_, ?_, ?_⟩
  · unfold paillierGetKey
    cases hs : store keyID with
    | error e => rfl
    | ok bs =>
      dsimp only
      cases hd : decode bs with
      | error e => rfl
      | ok k => rfl
  · intro e hs
    unfold paillierGetKey
    rw [hs]
  · intro bs e hs hd
    unfold paillierGetKey
    rw [hs]
    dsimp only
    rw [hd]

/-- Witness for C10: a keystore whose lookup always fails and a decoder that
always fails both yield the zero-valued key and a nil error. -/
theorem paillierGetKey_never_errors_witness :
    (paillierGetKey (fun _ => .error "not found") (fun _ => .error "bad bytes")
        "ski").2 = none ∧
    paillierGetKey (fun _ => .error "not found") (fun _ => .error "bad bytes")
        "ski" = (zeroPaillierKey, none) ∧
    paillierGetKey (fun _ => .ok []) (fun _ => .error "bad bytes")
        "ski" = (zeroPaillierKey, none) := by
  refine ⟨?_, ?_, ?_⟩
  · exact (paillierGetKey_never_errors (fun _ => .error "not found")
      (fun _ => .error "bad bytes") "ski").1
  · exact (paillierGetKey_never_errors (fun _ => .error "not found")
      (fun _ => .error "bad bytes") "ski").2.1 "not found" rfl
  · exact (paillierGetKey_never_errors (fun _ => .ok [])
      (fun _ => .error "bad bytes") "ski").2.2 [] "bad bytes" rfl rfl

end PaillierMgr

end MpcLib
